import Mathlib

set_option maxRecDepth 40000

/-!
Verification of the respeaker-rs parameter protocol and reconciliation engine.

Shallow embedding of `crates/respeaker/src/params.rs`,
`crates/respeaker/src/respeaker_device.rs` and the reconciliation pass of
`crates/respeaker/src/ui.rs`.

Modelling conventions:
* Rust `i32` values are embedded as `ℤ`; where two's-complement byte encoding
  matters it is made explicit via `% 2^32`.
* Rust `f32` values are embedded exactly, as the integer `value · 2^149`
  (type `F32` below; every finite `f32` is an integer multiple of
  `2^(-149)`).  All `f32` literals appearing in the parameter table are
  transcribed as the exact scaled value of the nearest binary32 float (the
  value the Rust compiler stores for the literal), e.g. `0.9f32 =
  7549747/2^23`.  IEEE-754 comparisons on finite floats coincide with the
  integer order of the scaled values, so `<`/`>`/`==` on `F32` faithfully
  model the Rust comparisons in the scope of finite, non-NaN floats (NaN and
  the infinities never arise as parameter values or bounds in this program
  and are outside the modelled value domain).
* Byte strings are `List ℕ` with every element `< 256`.
* The USB transport is external: the codec-level functions return the exact
  payload that would be handed to `write_control`, wrapped in `Except` so
  that a validation failure (which in the source `bail!`s before any transport
  call) is visibly distinguished from a successful encode.
* `description` and `value_descriptions` strings of the parameter table are
  omitted: no modelled operation reads them (they only feed UI labels).
-/

namespace Respeaker

/-- Source `params.rs`: `enum Access { ReadOnly, ReadWrite }`. -/
inductive Access where
  | readOnly
  | readWrite
deriving DecidableEq, Repr

/-- Source `params.rs`: `struct Config<T> { id: u16, cmd: u16, min: T, max: T,
access: Access, .. }` (description strings omitted, see module comment). -/
structure Config (α : Type) where
  id : ℕ
  cmd : ℕ
  min : α
  max : α
  access : Access
deriving DecidableEq, Repr

/-- A finite `f32` value, scaled by `2^149`: the term `v : F32` denotes the
float value `v / 2^149` (every finite `f32` is an integer multiple of
`2^(-149)`, so this is exact).  See the binary32 section below for the
rationale and the rounding model. -/
abbrev F32 : Type := ℤ

/-- The rational value denoted by a scaled `F32`. -/
def F32.toRat (v : F32) : ℚ := (v : ℚ) / 2 ^ 149

/-- The scaled-`F32` value `num / 2^powDen` (requires `powDen ≤ 149`, which
holds for every float constant in the program). -/
def f32Of (num : ℤ) (powDen : ℕ) : F32 := num * 2 ^ (149 - powDen)

/-- Source `params.rs`: `enum ParamConfig { IntMany(Config<i32>),
IntFew(Config<i32>), Float(Config<f32>) }`. -/
inductive ParamConfig where
  | intMany (c : Config ℤ)
  | intFew (c : Config ℤ)
  | float (c : Config F32)
deriving DecidableEq, Repr

/-- Source helper `ParamConfig::int_n(id, cmd, max, min, access, ..)`.
Note the source argument order: `max` comes before `min`. -/
def ParamConfig.int_n (id cmd : ℕ) (max min : ℤ) (access : Access) : ParamConfig :=
  .intMany ⟨id, cmd, min, max, access⟩

/-- Source helper `ParamConfig::int2(id, cmd, max, min, access, ..)` (two
value-description strings, omitted).  `max` before `min` as in the source. -/
def ParamConfig.int2 (id cmd : ℕ) (max min : ℤ) (access : Access) : ParamConfig :=
  .intFew ⟨id, cmd, min, max, access⟩

/-- Source helper `ParamConfig::int3`, identical to `int2` up to the omitted
description strings. -/
def ParamConfig.int3 (id cmd : ℕ) (max min : ℤ) (access : Access) : ParamConfig :=
  .intFew ⟨id, cmd, min, max, access⟩

/-- Source helper `ParamConfig::int4`, identical to `int2` up to the omitted
description strings. -/
def ParamConfig.int4 (id cmd : ℕ) (max min : ℤ) (access : Access) : ParamConfig :=
  .intFew ⟨id, cmd, min, max, access⟩

/-- Source helper `ParamConfig::float(id, cmd, max, min, access, ..)`; the
`f32` bounds are transcribed as the exact scaled values of the `f32`
literals. -/
def ParamConfig.mkFloat (id cmd : ℕ) (max min : F32) (access : Access) : ParamConfig :=
  .float ⟨id, cmd, min, max, access⟩

/-- Source `params.rs`: `enum Param` — the 40 parameter kinds, in declaration
order (which is the `strum::EnumIter` iteration order). -/
inductive Param where
  | AECFREEZEONOFF
  | AECNORM
  | AECPATHCHANGE
  | AECSILENCELEVEL
  | AECSILENCEMODE
  | AGCDESIREDLEVEL
  | AGCGAIN
  | AGCMAXGAIN
  | AGCONOFF
  | AGCTIME
  | CNIONOFF
  | DOAANGLE
  | ECHOONOFF
  | FREEZEONOFF
  | FSBPATHCHANGE
  | FSBUPDATED
  | GAMMAVAD_SR
  | GAMMA_E
  | GAMMA_ENL
  | GAMMA_ETAIL
  | GAMMA_NN
  | GAMMA_NN_SR
  | GAMMA_NS
  | GAMMA_NS_SR
  | HPFONOFF
  | MIN_NN
  | MIN_NN_SR
  | MIN_NS
  | MIN_NS_SR
  | NLAEC_MODE
  | NLATTENONOFF
  | NONSTATNOISEONOFF
  | NONSTATNOISEONOFF_SR
  | RT60
  | RT60ONOFF
  | SPEECHDETECTED
  | STATNOISEONOFF
  | STATNOISEONOFF_SR
  | TRANSIENTONOFF
  | VOICEACTIVITY
deriving DecidableEq, Repr, Fintype

/-- Source `params.rs`: `Param::config`, the static `enum_map!` table.  Match
arms are transcribed in the source's `enum_map!` entry order.  Exact rational
transcriptions of the `f32` literals: `0.9 = 7549747/8388608`,
`1e-09 = 9007199/9007199254740992`, `0.99 = 4152361/4194304`,
`1e-08 = 11258999/1125899906842624`, `0.1 = 13421773/134217728`; all other
float literals are exact. -/
def Param.config : Param → ParamConfig
  | .AECFREEZEONOFF => .int2 18 7 1 0 .readWrite
  | .AECNORM => .mkFloat 18 19 (f32Of 16 0) (f32Of 1 2) .readWrite
  | .AECPATHCHANGE => .int2 18 25 1 0 .readOnly
  | .RT60 => .mkFloat 18 26 (f32Of 7549747 23) (f32Of 1 2) .readOnly
  | .HPFONOFF => .int4 18 27 3 0 .readWrite
  | .RT60ONOFF => .int2 18 28 1 0 .readWrite
  | .AECSILENCELEVEL => .mkFloat 18 30 (f32Of 1 0) (f32Of 9007199 53) .readWrite
  | .AECSILENCEMODE => .int2 18 31 1 0 .readOnly
  | .AGCONOFF => .int2 19 0 1 0 .readWrite
  | .AGCMAXGAIN => .mkFloat 19 1 (f32Of 1000 0) (f32Of 1 0) .readWrite
  | .AGCDESIREDLEVEL => .mkFloat 19 2 (f32Of 4152361 22) (f32Of 11258999 50) .readWrite
  | .AGCGAIN => .mkFloat 19 3 (f32Of 1000 0) (f32Of 1 0) .readWrite
  | .AGCTIME => .mkFloat 19 4 (f32Of 1 0) (f32Of 13421773 27) .readWrite
  | .CNIONOFF => .int2 19 5 1 0 .readWrite
  | .FREEZEONOFF => .int2 19 6 1 0 .readWrite
  | .STATNOISEONOFF => .int2 19 8 1 0 .readWrite
  | .GAMMA_NS => .mkFloat 19 9 (f32Of 3 0) (f32Of 0 0) .readWrite
  | .MIN_NS => .mkFloat 19 10 (f32Of 1 0) (f32Of 0 0) .readWrite
  | .NONSTATNOISEONOFF => .int2 19 11 1 0 .readWrite
  | .GAMMA_NN => .mkFloat 19 12 (f32Of 3 0) (f32Of 0 0) .readWrite
  | .MIN_NN => .mkFloat 19 13 (f32Of 1 0) (f32Of 0 0) .readWrite
  | .ECHOONOFF => .int2 19 14 1 0 .readWrite
  | .GAMMA_E => .mkFloat 19 15 (f32Of 3 0) (f32Of 0 0) .readWrite
  | .GAMMA_ETAIL => .mkFloat 19 16 (f32Of 3 0) (f32Of 0 0) .readWrite
  | .GAMMA_ENL => .mkFloat 19 17 (f32Of 5 0) (f32Of 0 0) .readWrite
  | .NLATTENONOFF => .int2 19 18 1 0 .readWrite
  | .NLAEC_MODE => .int3 19 20 2 0 .readWrite
  | .SPEECHDETECTED => .int2 19 22 1 0 .readOnly
  | .FSBUPDATED => .int2 19 23 1 0 .readOnly
  | .FSBPATHCHANGE => .int2 19 24 1 0 .readOnly
  | .TRANSIENTONOFF => .int2 19 29 1 0 .readWrite
  | .VOICEACTIVITY => .int2 19 32 1 0 .readOnly
  | .STATNOISEONOFF_SR => .int2 19 33 1 0 .readWrite
  | .NONSTATNOISEONOFF_SR => .int2 19 34 1 0 .readWrite
  | .GAMMA_NS_SR => .mkFloat 19 35 (f32Of 3 0) (f32Of 0 0) .readWrite
  | .GAMMA_NN_SR => .mkFloat 19 36 (f32Of 3 0) (f32Of 0 0) .readWrite
  | .MIN_NS_SR => .mkFloat 19 37 (f32Of 1 0) (f32Of 0 0) .readWrite
  | .MIN_NN_SR => .mkFloat 19 38 (f32Of 1 0) (f32Of 0 0) .readWrite
  | .GAMMAVAD_SR => .mkFloat 19 39 (f32Of 1000 0) (f32Of 0 0) .readWrite
  | .DOAANGLE => .int_n 21 0 359 0 .readOnly

/-- Source `params.rs`: `ParamConfig::access`. -/
def ParamConfig.access : ParamConfig → Access
  | .intMany c => c.access
  | .intFew c => c.access
  | .float c => c.access

/-- Source `params.rs`: `Param::iter()` (strum `EnumIter`) — every `Param` in
declaration order. -/
def Param.iterList : List Param :=
  [.AECFREEZEONOFF, .AECNORM, .AECPATHCHANGE, .AECSILENCELEVEL, .AECSILENCEMODE,
   .AGCDESIREDLEVEL, .AGCGAIN, .AGCMAXGAIN, .AGCONOFF, .AGCTIME, .CNIONOFF,
   .DOAANGLE, .ECHOONOFF, .FREEZEONOFF, .FSBPATHCHANGE, .FSBUPDATED,
   .GAMMAVAD_SR, .GAMMA_E, .GAMMA_ENL, .GAMMA_ETAIL, .GAMMA_NN, .GAMMA_NN_SR,
   .GAMMA_NS, .GAMMA_NS_SR, .HPFONOFF, .MIN_NN, .MIN_NN_SR, .MIN_NS, .MIN_NS_SR,
   .NLAEC_MODE, .NLATTENONOFF, .NONSTATNOISEONOFF, .NONSTATNOISEONOFF_SR,
   .RT60, .RT60ONOFF, .SPEECHDETECTED, .STATNOISEONOFF, .STATNOISEONOFF_SR,
   .TRANSIENTONOFF, .VOICEACTIVITY]

/-- Source `params.rs`, `Param::sorted`: the sort key passed to
`sort_by_key` — `(access: ReadWrite ↦ 0 / ReadOnly ↦ 1, type: Int ↦ 0 /
Float ↦ 1)`. -/
def Param.sortKey (p : Param) : ℕ × ℕ :=
  let config := p.config
  (match config.access with
    | .readOnly => 1
    | .readWrite => 0,
   match config with
    | .intMany _ | .intFew _ => 0
    | .float _ => 1)

/-- Lexicographic order on sort keys, as Rust's derived `Ord` on tuples
compares them. -/
def keyLe (x y : ℕ × ℕ) : Prop :=
  x.1 < y.1 ∨ (x.1 = y.1 ∧ x.2 ≤ y.2)

instance : DecidableRel keyLe := fun x y => by
  unfold keyLe; infer_instance

/-- Source `params.rs`, `Param::sorted`: stable ascending sort of
`Param::iter()` by `sortKey` (Rust `sort_by_key` is a stable sort;
`List.insertionSort` is likewise stable). -/
def Param.sorted : List Param :=
  List.insertionSort (fun a b => keyLe (sortKey a) (sortKey b)) Param.iterList

/-- Source `params.rs`: `enum Value { Int(Config<i32>, i32),
Float(Config<f32>, f32) }`.  The derived `PartialEq` (used by the
reconciliation diff) compares both the config and the numeric value; on the
modelled domain of finite floats, `f32` equality coincides with `ℚ`
equality. -/
inductive Value where
  | int (c : Config ℤ) (v : ℤ)
  | float (c : Config F32) (v : F32)
deriving DecidableEq, Repr

/-! ### IEEE-754 binary32 model

Every finite `f32` value is an integer multiple of `2^(-149)`, so a finite
`f32` is modelled by the integer `value · 2^149` (type synonym `F32` below).
This keeps the whole pipeline inside `ℤ`/`ℕ`, which the kernel can evaluate
(Batteries marks `ℚ` arithmetic `@[irreducible]`).  On finite floats, IEEE
comparisons coincide with the integer order of the scaled values, so
`<`/`>`/`==` on `F32` faithfully model the Rust `f32` comparisons (NaN never
arises as a parameter value or bound in this program and is outside the
modelled value domain).  Rounding an exact rational to binary32 is modelled
executably for round-to-nearest-ties-to-even (the rounding of Rust's
`as f32` cast and of `f32::from_str`) and for round-toward-zero (the
"truncation" the spec's wording describes). -/

/-- Fuel-driven floor of `log2` (structural recursion so that the kernel can
evaluate it; `Nat.log2` itself is well-founded and does not reduce). -/
def log2fuel : ℕ → ℕ → ℕ
  | 0, _ => 0
  | fuel + 1, n => if n ≤ 1 then 0 else log2fuel fuel (n / 2) + 1

/-- Greatest `e` with `2^e ≤ n`, for `n ≥ 1` (and `0` for `n = 0`). -/
def natLog2 (n : ℕ) : ℕ := log2fuel n n

/-- Test `2^e ≤ n / d` for positive naturals `n, d` and `e : ℤ`, in exact
integer arithmetic. -/
def le2pow (n d : ℕ) (e : ℤ) : Bool :=
  if 0 ≤ e then d * 2 ^ e.toNat ≤ n else d ≤ n * 2 ^ (-e).toNat

/-- Greatest `e : ℤ` with `2^e ≤ n/d`, for `n, d ≥ 1`: start from the
difference of the integer logs (correct within one) and adjust. -/
def log2floorPair (n d : ℕ) : ℤ :=
  let g : ℤ := (natLog2 n : ℤ) - (natLog2 d : ℤ)
  if le2pow n d (g + 1) then g + 1 else if le2pow n d g then g else g - 1

/-- `N / D` rounded to the nearest natural, ties to even. -/
def rneDiv (N D : ℕ) : ℕ :=
  let q := N / D
  let r := N % D
  if 2 * r < D then q
  else if D < 2 * r then q + 1
  else if q % 2 = 0 then q else q + 1

/-- `N / D` rounded toward zero. -/
def truncDiv (N D : ℕ) : ℕ := N / D

/-- A binary32 float in sign/significand/scale form (value `±n·2^k`, with
`2^23 ≤ n < 2^24`, `-149 ≤ k ≤ 104` when normal, or `n < 2^23`, `k = -149`
when subnormal), plus the two infinities. -/
inductive F32Repr where
  | zero
  | finite (sign : Bool) (n : ℕ) (k : ℤ)
  | inf (sign : Bool)
deriving DecidableEq, Repr

/-- Round the positive rational `n / d` to binary32, with the significand
division performed by `divRound` (`rneDiv` for round-to-nearest-ties-even,
`truncDiv` for round-toward-zero). -/
def roundPosCore (divRound : ℕ → ℕ → ℕ) (n d : ℕ) : F32Repr :=
  let e := log2floorPair n d
  let k : ℤ := if e < -126 then -149 else e - 23
  let nd : ℕ × ℕ := if k ≤ 0 then (n * 2 ^ (-k).toNat, d) else (n, d * 2 ^ k.toNat)
  let n' := divRound nd.1 nd.2
  if n' = 0 then .zero
  else if 2 ^ 24 ≤ n' then
    -- rounding overflowed the significand range (`n' = 2^24`): renormalize
    if 127 < k + 24 then .inf false else .finite false (2 ^ 23) (k + 1)
  else if 2 ^ 23 ≤ n' ∧ 127 < k + 23 then .inf false
  else .finite false n' k

/-- Attach a sign to an unsigned rounding result. -/
def F32Repr.withSign (sign : Bool) : F32Repr → F32Repr
  | .zero => .zero
  | .finite _ n k => .finite sign n k
  | .inf _ => .inf sign

/-- Round the rational `sign · n / d` (`d ≥ 1`) to binary32. -/
def roundF32 (divRound : ℕ → ℕ → ℕ) (sign : Bool) (n d : ℕ) : F32Repr :=
  (roundPosCore divRound n d).withSign sign

/-- The scaled (`· 2^149`) value of a binary32 representation. -/
def F32Repr.scaled : F32Repr → F32
  | .zero => 0
  | .finite s n k => (if s then -1 else 1) * (n : ℤ) * 2 ^ (k + 149).toNat
  | .inf s => (if s then -1 else 1) * 2 ^ 349

/-- The bit pattern (a natural `< 2^32`) of a binary32 representation: sign
bit, 8 biased exponent bits, 23 mantissa bits. -/
def F32Repr.bits : F32Repr → ℕ
  | .zero => 0
  | .finite s n k =>
      (if s then 2 ^ 31 else 0) +
      (if n < 2 ^ 23 then n else (k + 23 + 127).toNat * 2 ^ 23 + (n - 2 ^ 23))
  | .inf s => (if s then 2 ^ 31 else 0) + 255 * 2 ^ 23

/-- Round-to-nearest-ties-to-even narrowing of the rational `x / 2^149`
(given scaled) to an `f32`, returned scaled: the identity on every exact
`f32` value. -/
def f32RNEscaled (x : ℤ) : F32 :=
  (roundF32 rneDiv (decide (x < 0)) x.natAbs (2 ^ 149)).scaled

/-- The bit pattern of the `f32` with (scaled) value `v` — `f32::to_bits` on
the modelled domain of exact finite `f32` values. -/
def f32bits (v : F32) : ℕ :=
  (roundF32 rneDiv (decide (v < 0)) v.natAbs (2 ^ 149)).bits

/-! ### Wire encoding -/

/-- Little-endian 4-byte encoding of a natural number `< 2^32`
(`u32::to_le_bytes`). -/
def leBytes4 (n : ℕ) : List ℕ :=
  [n % 256, n / 256 % 256, n / 256 ^ 2 % 256, n / 256 ^ 3 % 256]

/-- `i32::to_le_bytes`: two's-complement little-endian encoding of an
integer (reduced mod `2^32`). -/
def i32leBytes (i : ℤ) : List ℕ := leBytes4 (i % 2 ^ 32).toNat

/-- `f32::to_le_bytes` on the float with value `q`: little-endian bytes of
its bit pattern. -/
def f32leBytes (v : F32) : List ℕ := leBytes4 (f32bits v)

/-- `i32::from_le_bytes`: decode 4 little-endian bytes into the signed
integer they represent in two's complement. -/
def i32fromLeBytes (bs : List ℕ) : ℤ :=
  let u : ℕ := bs.getD 0 0 + 256 * bs.getD 1 0 + 256 ^ 2 * bs.getD 2 0 + 256 ^ 3 * bs.getD 3 0
  if u < 2 ^ 31 then (u : ℤ) else (u : ℤ) - 2 ^ 32

/-! ### Device session codec (`respeaker_device.rs`) -/

instance {ε α : Type} [DecidableEq ε] [DecidableEq α] : DecidableEq (Except ε α)
  | .error e, .error e' =>
      if h : e = e' then .isTrue (by rw [h]) else .isFalse (by simp [h])
  | .error _, .ok _ => .isFalse (by simp)
  | .ok _, .error _ => .isFalse (by simp)
  | .ok a, .ok b =>
      if h : a = b then .isTrue (by rw [h]) else .isFalse (by simp [h])

namespace ReSpeakerDevice

/-- Validation failures of `ReSpeakerDevice::write` (the three `bail!` sites
that fire before any transport call), in the spec's taxonomy:
`TypeMismatch` ("Value must be of type int/float"), `OutOfRange` ("Value .. is
not in range min..=max", carrying the bounds and the offending value), and
`ReadOnlyViolation` ("Parameter .. is read-only"). -/
inductive WriteError where
  | readOnlyViolation
  | typeMismatch
  | outOfRangeInt (min max actual : ℤ)
  | outOfRangeFloat (min max actual : F32)
deriving DecidableEq, Repr

/-- Source `respeaker_device.rs`, `ReSpeakerDevice::read`, request half: the
`value` word passed to `read_control` — `0x80 | cmd`, additionally
`|= 0x40` when the parameter is integer-typed.  The source first extracts
`(is_int, id, cmd)` by matching the config; mirrored here. -/
def readCommand (param_config : ParamConfig) : ℕ :=
  let t : Bool × ℕ × ℕ :=
    match param_config with
    | .intMany config | .intFew config => (true, config.id, config.cmd)
    | .float config => (false, config.id, config.cmd)
  let cmd := 0x80 ||| t.2.2
  if t.1 then cmd ||| 0x40 else cmd

/-- Source `respeaker_device.rs`, `ReSpeakerDevice::read`, float decode:
`(f64::from(mantissa) * f64::from(exponent).exp2()) as f32`.  For any `i32`
mantissa `m` and exponent `e` with `m·2^e` inside the binary64 range, the
`f64` product is exact (an `i32` has at most 31 significant bits, well under
the 53-bit binary64 significand, and `exp2` of an integral argument is the
exact power of two), so the composite equals a single round-to-nearest
(ties-to-even, the semantics of Rust's `as f32` cast) of the exact rational
`m·2^e`. -/
def decodeFloat (m e : ℤ) : F32 :=
  if 0 ≤ e then (roundF32 rneDiv (decide (m < 0)) (m.natAbs * 2 ^ e.toNat) 1).scaled
  else (roundF32 rneDiv (decide (m < 0)) m.natAbs (2 ^ (-e).toNat)).scaled

/-- The same narrowing with the significand truncated (round-toward-zero)
instead of rounded to nearest — the behaviour the spec's words ascribe to
the `as f32` cast.  Stated from the spec for comparison with `decodeFloat`;
the source's cast rounds to nearest, ties to even. -/
def decodeFloatTruncSpec (m e : ℤ) : F32 :=
  if 0 ≤ e then (roundF32 truncDiv (decide (m < 0)) (m.natAbs * 2 ^ e.toNat) 1).scaled
  else (roundF32 truncDiv (decide (m < 0)) m.natAbs (2 ^ (-e).toNat)).scaled

/-- Source `respeaker_device.rs`, `ReSpeakerDevice::read`, response half: the
8-byte buffer is split into two little-endian `i32`s `(mantissa, exponent)`;
an integer-typed parameter takes `mantissa` directly, a float-typed one takes
`mantissa·2^exponent` narrowed to `f32` (see `decodeFloat`). -/
def decodeResponse (param_config : ParamConfig) (buffer : List ℕ) : Value :=
  let m := i32fromLeBytes (buffer.take 4)
  let e := i32fromLeBytes ((buffer.drop 4).take 4)
  match param_config with
  | .intMany config | .intFew config => .int config m
  | .float config => .float config (decodeFloat m e)

/-- Source `respeaker_device.rs`, `ReSpeakerDevice::write`: validation and
payload construction.  Returns the exact 12-byte payload handed to
`write_control` on success; a validation failure `bail!`s before the
transport is touched, modelled by `.error`.  The check order is the
source's: (1) the access check, (2) the value-tag match inside the
config-branch match, (3) the range check. -/
def write (param : Param) (value : Value) : Except WriteError (List ℕ) :=
  let config := param.config
  let access := config.access
  if access = .readOnly then .error .readOnlyViolation
  else
    match config with
    | .intMany config | .intFew config =>
      match value with
      | .float _ _ => .error .typeMismatch
      | .int _ v =>
        if v < config.min ∨ config.max < v then
          .error (.outOfRangeInt config.min config.max v)
        else
          .ok (i32leBytes config.cmd ++ i32leBytes v ++ i32leBytes 1)
    | .float config =>
      match value with
      | .int _ _ => .error .typeMismatch
      | .float _ v =>
        if v < config.min ∨ config.max < v then
          .error (.outOfRangeFloat config.min config.max v)
        else
          .ok (i32leBytes config.cmd ++ f32leBytes v ++ i32leBytes 0)

/-- Number of transport control transfers a `write` outcome performs: the
single `write_control` call happens exactly when validation succeeded
(`bail!` returns before it otherwise). -/
def transportWrites : Except WriteError (List ℕ) → ℕ
  | .ok _ => 1
  | .error _ => 0

end ReSpeakerDevice

/-! ### Reconciliation diff pass (`ui.rs`, `update_internal`)

The write-back pass iterates `state.params.iter().zip(state.previous_params.iter())`
and calls `device.write(p, new)` for every pair with `new != old`.  A
snapshot map is embedded as its iteration sequence, a `List (Param × Value)`.
`previous_params` is only ever created as a clone of `params`
(`update_all_params` and the post-write `state.previous_params =
state.params.clone()`), and cloning a `HashMap` preserves its layout, so the
two sequences always carry the same keys in the same order; theorems make
that alignment an explicit hypothesis. -/

/-- The writes issued by one diff pass, in order: for each position where the
zipped entries' values differ, a write of the `params`-side (new) entry.
Mirrors `for ((p, new), (_, old)) in params.iter().zip(previous_params.iter())
{ if new != old { device.write(p, new) } }`. -/
def tickWrites (params previous_params : List (Param × Value)) : List (Param × Value) :=
  ((params.zip previous_params).filter
    (fun pr => decide (pr.1.2 ≠ pr.2.2))).map (fun pr => pr.1)

/-! ### Value-string parsing (`params.rs`, trait `ParseValue`) -/

/-- Numeric value of a list of ASCII digits, most significant first. -/
def digitsToNat (ds : List Char) : ℕ :=
  ds.foldl (fun a c => a * 10 + (c.toNat - 48)) 0

/-- Strip one optional leading `+`/`-`, returning the sign as `1`/`-1`. -/
def stripSign : List Char → ℤ × List Char
  | '+' :: rest => (1, rest)
  | '-' :: rest => (-1, rest)
  | cs => (1, cs)

/-- Rust `str::parse::<i32>` (`i32::from_str`): an optional sign followed by
one or more ASCII digits, with the resulting value required to fit in `i32`
(overflow is a parse error). -/
def parseI32 (s : String) : Option ℤ :=
  let t := stripSign s.data
  if t.2 = [] ∨ ¬ t.2.all Char.isDigit then none
  else
    let v := t.1 * digitsToNat t.2
    if -(2 ^ 31) ≤ v ∧ v < 2 ^ 31 then some v else none

/-- Rust `str::parse::<f32>` (`f32::from_str`) on the modelled domain: an
optional sign, then `Digits '.'? Digits?` or `'.' Digits`, then an optional
`(e|E) Sign? Digits` exponent; the decimal value is rounded to the nearest
`f32` (ties to even), overflow giving the infinity sentinel.  The `inf`,
`infinity` and `nan` literal forms that Rust additionally accepts denote
non-finite values outside the modelled `F32` domain and are omitted. -/
def parseF32 (s : String) : Option F32 :=
  let t := stripSign s.data
  let sgn : Bool := t.1 < 0
  let mexp := t.2.span (fun c => !(c = 'e' || c = 'E'))
  let expOpt : Option ℤ :=
    match mexp.2 with
    | [] => some 0
    | _ :: tail =>
      let te := stripSign tail
      if te.2 = [] ∨ ¬ te.2.all Char.isDigit then none
      else some (te.1 * digitsToNat te.2)
  let ipfp := mexp.1.span (fun c => !(c = '.'))
  let mantOpt : Option (ℕ × ℕ) :=
    match ipfp.2 with
    | [] =>
      if ipfp.1 = [] ∨ ¬ ipfp.1.all Char.isDigit then none
      else some (digitsToNat ipfp.1, 0)
    | _ :: fp =>
      if (ipfp.1 = [] ∧ fp = []) ∨ ¬ ipfp.1.all Char.isDigit ∨ ¬ fp.all Char.isDigit
      then none
      else some (digitsToNat ipfp.1 * 10 ^ fp.length + digitsToNat fp, fp.length)
  match mantOpt, expOpt with
  | some m, some e =>
    -- value = sgn · m.1 / 10^m.2 · 10^e, as an exact pair numerator/denominator
    let e' := e - m.2
    if 0 ≤ e' then some (roundF32 rneDiv sgn (m.1 * 10 ^ e'.toNat) 1).scaled
    else some (roundF32 rneDiv sgn m.1 (10 ^ (-e').toNat)).scaled
  | _, _ => none

/-- Source `params.rs`: `impl ParseValue for Config<i32>` — parse the string
as an `i32` and wrap it; no range check against `min`/`max`. -/
def ConfigInt.parse_value (c : Config ℤ) (s : String) : Option Value :=
  (parseI32 s).map (fun n => Value.int c n)

/-- Source `params.rs`: `impl ParseValue for Config<f32>` — parse the string
as an `f32` and wrap it; no range check against `min`/`max`. -/
def ConfigFloat.parse_value (c : Config F32) (s : String) : Option Value :=
  (parseF32 s).map (fun v => Value.float c v)

/-- Source `params.rs`: `impl ParseValue for ParamConfig` — dispatch on the
config variant. -/
def ParamConfig.parse_value : ParamConfig → String → Option Value
  | .intFew config, s | .intMany config, s => ConfigInt.parse_value config s
  | .float config, s => ConfigFloat.parse_value config s

/-! ### Spec-side predicates

The following definitions transcribe the spec's vocabulary (value domain,
tag match, inclusive range, the expected `OutOfRange` payload, the expected
write payload) so that the theorems below can compare the source-derived
functions against the spec's words. -/

/-- Whether a parameter's value domain is integer-typed (spec:
IntegerDiscrete/IntegerRange vs FloatRange). -/
def ParamConfig.isIntTyped : ParamConfig → Bool
  | .intMany _ | .intFew _ => true
  | .float _ => false

/-- The `command` sub-address of a parameter. -/
def ParamConfig.cmdOf : ParamConfig → ℕ
  | .intMany c | .intFew c => c.cmd
  | .float c => c.cmd

/-- Spec: "the Value's tag matches the parameter's declared domain". -/
def tagMatches (c : ParamConfig) (v : Value) : Bool :=
  match c, v with
  | .intMany _, .int _ _ | .intFew _, .int _ _ => true
  | .float _, .float _ _ => true
  | _, _ => false

/-- Spec: "the numeric value lies within `[min, max]` inclusive for that
parameter" (`false` on a tag mismatch). -/
def inRangeB (c : ParamConfig) (v : Value) : Bool :=
  match c, v with
  | .intMany cfg, .int _ x | .intFew cfg, .int _ x => decide (cfg.min ≤ x ∧ x ≤ cfg.max)
  | .float cfg, .float _ x => decide (cfg.min ≤ x ∧ x ≤ cfg.max)
  | _, _ => false

/-- Spec: the `OutOfRange{min, max, actual}` error a rejected write reports
(meaningful only when the tag matches). -/
def oorError (c : ParamConfig) (v : Value) : ReSpeakerDevice.WriteError :=
  match c, v with
  | .intMany cfg, .int _ x | .intFew cfg, .int _ x => .outOfRangeInt cfg.min cfg.max x
  | .float cfg, .float _ x => .outOfRangeFloat cfg.min cfg.max x
  | _, _ => .typeMismatch

/-- Spec: the 4 little-endian value bytes of a write payload — the raw `i32`
bytes for an integer value, the raw `f32` bit pattern for a float value. -/
def valueBytes : Value → List ℕ
  | .int _ x => i32leBytes x
  | .float _ x => f32leBytes x

/-- Helper: `ReSpeakerDevice.write`, re-expressed as the spec's three checks
in the source's order (access, then tag, then range) followed by the
spec-side payload.  Shared by several claim theorems below. -/
theorem write_eq_checks (p : Param) (v : Value) :
    ReSpeakerDevice.write p v =
      if p.config.access = .readOnly then .error .readOnlyViolation
      else if ¬ tagMatches p.config v then .error .typeMismatch
      else if ¬ inRangeB p.config v then .error (oorError p.config v)
      else .ok (i32leBytes p.config.cmdOf ++ valueBytes v ++
        i32leBytes (if p.config.isIntTyped then 1 else 0)) := by
  unfold ReSpeakerDevice.write
  rcases hc : p.config with c | c | c <;> rcases v with ⟨cv, x⟩ | ⟨cv, x⟩ <;>
    rcases hacc : c.access with _ | _ <;>
    simp only [hc, hacc, tagMatches, inRangeB, oorError, valueBytes,
      ParamConfig.isIntTyped, ParamConfig.cmdOf, ParamConfig.access,
      reduceCtorEq, Bool.not_true, Bool.not_false, decide_eq_true_eq,
      if_true, if_false, reduceIte, not_false_eq_true, not_true_eq_false] <;>
    try rfl
  all_goals
    by_cases hr : x < c.min ∨ c.max < x
  all_goals
    first
      | (have hnr : ¬ (c.min ≤ x ∧ x ≤ c.max) := by
           rcases hr with h | h
           · exact fun hb => absurd hb.1 (not_le.mpr h)
           · exact fun hb => absurd hb.2 (not_le.mpr h)
         simp [hr, hnr])
      | (have hir : c.min ≤ x ∧ x ≤ c.max := by
           push_neg at hr
           exact ⟨hr.1, hr.2⟩
         simp [hr, hir])

/-- Helper: one cons step of the diff pass. -/
theorem tickWrites_cons (a b : Param × Value) (ps os : List (Param × Value)) :
    tickWrites (a :: ps) (b :: os) =
      (if a.2 ≠ b.2 then [a] else []) ++ tickWrites ps os := by
  by_cases h : a.2 = b.2 <;> simp [tickWrites, List.filter_cons, h]

/-- Helper: every write issued by a diff pass concerns a key present in the
`params` snapshot. -/
theorem tickWrites_key_mem {w : Param × Value} {ps os : List (Param × Value)}
    (h : w ∈ tickWrites ps os) : w.1 ∈ ps.map Prod.fst := by
  unfold tickWrites at h
  obtain ⟨pr, hpr, rfl⟩ := List.mem_map.mp h
  exact List.mem_map.mpr ⟨pr.1, (List.of_mem_zip (List.mem_filter.mp hpr).1).1, rfl⟩

/-! ## Claim theorems -/

/-- C1, counterexample: the spec's claimed validation order (tag match, then
range, then access) is falsified at a concrete input — writing a float
`Value` to the read-only integer parameter `AECPATHCHANGE` yields the
read-only error, not `TypeMismatch`, because the source checks the access
flag first. -/
theorem write_readonly_precedes_type_check_cex :
    ReSpeakerDevice.write .AECPATHCHANGE
        (.float ⟨18, 19, f32Of 1 2, f32Of 16 0, .readWrite⟩ (f32Of 1 1)) ≠
      .error .typeMismatch ∧
    ReSpeakerDevice.write .AECPATHCHANGE
        (.float ⟨18, 19, f32Of 1 2, f32Of 16 0, .readWrite⟩ (f32Of 1 1)) =
      .error .readOnlyViolation := by
  decide

/-- C1 (amended): for every write the three validation checks are performed
in the order (1) the parameter's access is ReadWrite — else
`ReadOnlyViolation`; (2) the Value's tag matches the declared domain — else
`TypeMismatch`; (3) the numeric value lies within `[min, max]` inclusive —
else `OutOfRange{min, max, actual}`; for an input violating several checks
the error of the earliest check in that order is returned (in particular a
float value written to a read-only integer parameter yields
`ReadOnlyViolation`, not `TypeMismatch`). -/
theorem write_validation_order (p : Param) (v : Value) :
    (p.config.access = .readOnly →
      ReSpeakerDevice.write p v = .error .readOnlyViolation) ∧
    (p.config.access ≠ .readOnly → tagMatches p.config v = false →
      ReSpeakerDevice.write p v = .error .typeMismatch) ∧
    (p.config.access ≠ .readOnly → tagMatches p.config v = true →
      inRangeB p.config v = false →
      ReSpeakerDevice.write p v = .error (oorError p.config v)) ∧
    (p.config.access ≠ .readOnly → tagMatches p.config v = true →
      inRangeB p.config v = true →
      ReSpeakerDevice.write p v =
        .ok (i32leBytes p.config.cmdOf ++ valueBytes v ++
          i32leBytes (if p.config.isIntTyped then 1 else 0))) := by
  refine ⟨fun h => ?_, fun h ht => ?_, fun h ht hr => ?_, fun h ht hr => ?_⟩ <;>
    rw [write_eq_checks]
  · simp [h]
  · simp [h, ht]
  · simp [h, ht, hr]
  · simp [h, ht, hr]

/-- C1 witness: a type-mismatched value written to a ReadWrite float
parameter is rejected with `TypeMismatch` (second check). -/
theorem write_validation_order_witness :
    ReSpeakerDevice.write .AECNORM (.int ⟨18, 7, 0, 1, .readWrite⟩ 3) =
      .error .typeMismatch :=
  (write_validation_order .AECNORM (.int ⟨18, 7, 0, 1, .readWrite⟩ 3)).2.1
    (by decide) (by decide)

/-- C3: writing any value to a ReadOnly parameter fails with the read-only
error and performs no transport I/O (zero control transfers on the
handle). -/
theorem readonly_write_rejected_no_transport (p : Param) (v : Value)
    (h : p.config.access = .readOnly) :
    ReSpeakerDevice.write p v = .error .readOnlyViolation ∧
    ReSpeakerDevice.transportWrites (ReSpeakerDevice.write p v) = 0 := by
  have hw : ReSpeakerDevice.write p v = .error .readOnlyViolation := by
    rw [write_eq_checks]; simp [h]
  exact ⟨hw, by rw [hw]; rfl⟩

/-- C3 witness: writing to the read-only `DOAANGLE` parameter. -/
theorem readonly_write_rejected_no_transport_witness :
    ReSpeakerDevice.write .DOAANGLE (.int ⟨21, 0, 0, 359, .readOnly⟩ 42) =
      .error .readOnlyViolation ∧
    ReSpeakerDevice.transportWrites
        (ReSpeakerDevice.write .DOAANGLE (.int ⟨21, 0, 0, 359, .readOnly⟩ 42)) = 0 :=
  readonly_write_rejected_no_transport .DOAANGLE
    (.int ⟨21, 0, 0, 359, .readOnly⟩ 42) (by decide)

/-- C5: every successful write's payload is exactly 12 bytes — 4 bytes
little-endian i32 command, then the 4 raw value bytes (the raw i32 bytes for
an integer parameter, the raw f32 bit pattern for a float parameter, no
mantissa/exponent transform), then 4 bytes little-endian i32 type tag, `1`
for integer and `0` for float. -/
theorem write_payload_layout (p : Param) (v : Value) (payload : List ℕ)
    (h : ReSpeakerDevice.write p v = .ok payload) :
    payload.length = 12 ∧
    payload = i32leBytes p.config.cmdOf ++ valueBytes v ++
      i32leBytes (if p.config.isIntTyped then 1 else 0) := by
  rw [write_eq_checks] at h
  by_cases h1 : p.config.access = .readOnly
  · simp [h1] at h
  by_cases h2 : tagMatches p.config v
  case neg => simp [h1, h2] at h
  by_cases h3 : inRangeB p.config v
  case neg => simp [h1, h2, h3] at h
  simp [h1, h2, h3] at h
  subst h
  refine ⟨?_, rfl⟩
  cases v <;> simp [valueBytes, i32leBytes, f32leBytes, leBytes4]

/-- C5 witness: a concrete successful float write — command 19, value bits
of `1.0f32` (`0x3F800000`), float tag 0. -/
theorem write_payload_layout_witness :
    ([19, 0, 0, 0, 0, 0, 128, 63, 0, 0, 0, 0] : List ℕ).length = 12 ∧
    ([19, 0, 0, 0, 0, 0, 128, 63, 0, 0, 0, 0] : List ℕ) =
      i32leBytes Param.AECNORM.config.cmdOf ++
        valueBytes (.float ⟨18, 19, f32Of 1 2, f32Of 16 0, .readWrite⟩ (f32Of 1 0)) ++
        i32leBytes (if Param.AECNORM.config.isIntTyped then 1 else 0) :=
  write_payload_layout .AECNORM
    (.float ⟨18, 19, f32Of 1 2, f32Of 16 0, .readWrite⟩ (f32Of 1 0))
    [19, 0, 0, 0, 0, 0, 128, 63, 0, 0, 0, 0] (by decide)

/-- C7: for a ReadWrite parameter and a correctly-typed value, write
validation succeeds exactly when the value lies within `[min, max]`
inclusive, and an out-of-range value is rejected with `OutOfRange` carrying
that parameter's bounds and the offending value. -/
theorem write_range_boundary (p : Param) (v : Value)
    (hacc : p.config.access = .readWrite)
    (htag : tagMatches p.config v = true) :
    ((∃ payload, ReSpeakerDevice.write p v = .ok payload) ↔
      inRangeB p.config v = true) ∧
    (inRangeB p.config v = false →
      ReSpeakerDevice.write p v = .error (oorError p.config v)) := by
  have hro : p.config.access ≠ .readOnly := by rw [hacc]; simp
  refine ⟨⟨fun ⟨pl, hpl⟩ => ?_, fun h3 => ?_⟩, fun h3 => ?_⟩
  · rw [write_eq_checks] at hpl
    by_cases h3 : inRangeB p.config v
    · exact h3
    · simp [hro, htag, h3] at hpl
  · refine ⟨i32leBytes p.config.cmdOf ++ valueBytes v ++
      i32leBytes (if p.config.isIntTyped then 1 else 0), ?_⟩
    rw [write_eq_checks]
    simp [hro, htag, h3]
  · rw [write_eq_checks]
    simp [hro, htag, h3]

/-- C7 witness: `HPFONOFF` has range `[0, 3]`: writing 3 (the max) passes
validation, while 4 (= max + 1) and -1 (= min - 1) are rejected with
`OutOfRange` carrying the bounds 0 and 3. -/
theorem write_range_boundary_witness :
    (∃ payload, ReSpeakerDevice.write .HPFONOFF
        (.int ⟨18, 27, 0, 3, .readWrite⟩ 3) = .ok payload) ∧
    ReSpeakerDevice.write .HPFONOFF (.int ⟨18, 27, 0, 3, .readWrite⟩ 4) =
      .error (.outOfRangeInt 0 3 4) ∧
    ReSpeakerDevice.write .HPFONOFF (.int ⟨18, 27, 0, 3, .readWrite⟩ (-1)) =
      .error (.outOfRangeInt 0 3 (-1)) :=
  ⟨(write_range_boundary .HPFONOFF (.int ⟨18, 27, 0, 3, .readWrite⟩ 3)
      (by decide) (by decide)).1.mpr (by decide),
   (write_range_boundary .HPFONOFF (.int ⟨18, 27, 0, 3, .readWrite⟩ 4)
      (by decide) (by decide)).2 (by decide),
   (write_range_boundary .HPFONOFF (.int ⟨18, 27, 0, 3, .readWrite⟩ (-1))
      (by decide) (by decide)).2 (by decide)⟩

/-- C6: the read-request command word is `0x80 | cmd`, additionally OR-ed
with `0x40` exactly when the parameter's value domain is integer-typed; as
every `cmd` in the table is `< 0x40`, the ORs coincide with addition, and
bit 6 of the encoded command is set iff the parameter is integer-typed. -/
theorem read_command_encoding (p : Param) :
    ReSpeakerDevice.readCommand p.config =
      0x80 + p.config.cmdOf + (if p.config.isIntTyped then 0x40 else 0) ∧
    Nat.testBit (ReSpeakerDevice.readCommand p.config) 6 = p.config.isIntTyped ∧
    p.config.cmdOf < 0x40 := by
  revert p; decide

/-- C8: `Param.sorted` is a permutation of `Param::iter()` (declaration
order), is sorted by the key (ReadWrite before ReadOnly, then integer-typed
before float-typed), and equals the declaration-order list filtered by key
bucket and concatenated — i.e. ties are broken by declaration order
(the sort is stable).  Determinism across repeated calls is immediate: the
model is a pure constant. -/
theorem sorted_kinds_stable_permutation :
    Param.sorted.Perm Param.iterList ∧
    Param.sorted.Pairwise (fun a b => keyLe (Param.sortKey a) (Param.sortKey b)) ∧
    Param.sorted =
      Param.iterList.filter (fun p => decide (Param.sortKey p = (0, 0))) ++
      Param.iterList.filter (fun p => decide (Param.sortKey p = (0, 1))) ++
      Param.iterList.filter (fun p => decide (Param.sortKey p = (1, 0))) ++
      Param.iterList.filter (fun p => decide (Param.sortKey p = (1, 1))) := by
  refine ⟨?_, ?_, ?_⟩ <;> decide

/-- C4, counterexample: the decode narrowing is not truncation — at
`(mantissa, exponent) = (16777219, 0)` the source's `as f32` cast
(round-to-nearest, ties to even) yields 16777220, whereas truncating to a
32-bit float would yield 16777218. -/
theorem float_decode_not_truncation_cex :
    ReSpeakerDevice.decodeFloat 16777219 0 ≠
      ReSpeakerDevice.decodeFloatTruncSpec 16777219 0 ∧
    ReSpeakerDevice.decodeFloat 16777219 0 = f32Of 16777220 0 ∧
    ReSpeakerDevice.decodeFloatTruncSpec 16777219 0 = f32Of 16777218 0 := by
  decide

/-- C4 (amended): decoding an 8-byte read response of two little-endian i32s
`(mantissa, exponent)` for a float parameter yields `mantissa · 2^exponent`
narrowed to a 32-bit float by round-to-nearest, ties-to-even (the semantics
of Rust's `as f32` cast), not by truncation; in particular `(15000, -10)` —
bytes `[152, 58, 0, 0, 246, 255, 255, 255]` — decodes to exactly
`15000 · 2^(-10) = 1875/128 = 14.6484375 ≈ 14.648` (within `10^(-3)`), and
`(16777219, 0)` decodes to the nearest float `16777220`, not the truncation
`16777218`. -/
theorem float_decode_round_nearest :
    ReSpeakerDevice.decodeResponse Param.AECNORM.config
        [152, 58, 0, 0, 246, 255, 255, 255] =
      .float ⟨18, 19, f32Of 1 2, f32Of 16 0, .readWrite⟩ (f32Of 1875 7) ∧
    F32.toRat (f32Of 1875 7) = 1875 / 128 ∧
    |(1875 / 128 : ℚ) - 14648 / 1000| < 1 / 1000 ∧
    ReSpeakerDevice.decodeFloat 15000 (-10) = f32Of 1875 7 ∧
    ReSpeakerDevice.decodeFloat 16777219 0 = f32Of 16777220 0 := by
  refine ⟨by decide, ?_, by rw [abs_sub_lt_iff]; constructor <;> norm_num, by decide, by decide⟩
  unfold F32.toRat f32Of
  rw [div_eq_div_iff (by positivity) (by norm_num)]
  push_cast
  norm_num

/-- C2: one reconciliation tick over aligned snapshots (the previous
snapshot is always created as a clone of the current map, so both iterate
the same keys in the same order) with no duplicate keys issues exactly one
write — carrying the new value — for a parameter whose value differs
between the snapshots, and no write for a parameter whose value is
unchanged. -/
theorem tick_writes_once_per_change (p : Param) (vnew vold : Value) :
    ∀ ps os : List (Param × Value),
      ps.map Prod.fst = os.map Prod.fst →
      (ps.map Prod.fst).Nodup →
      (p, vnew) ∈ ps → (p, vold) ∈ os →
      (tickWrites ps os).filter (fun w => decide (w.1 = p)) =
        if vnew = vold then [] else [(p, vnew)] := by
  intro ps
  induction ps with
  | nil => intro os _ _ hnew _; cases hnew
  | cons hd tl ih =>
    intro os halign hnodup hnew hold
    obtain ⟨q, n⟩ := hd
    cases os with
    | nil => cases hold
    | cons hd' os' =>
      obtain ⟨q', o⟩ := hd'
      simp only [List.map_cons, List.cons.injEq] at halign
      obtain ⟨hq, hmaps⟩ := halign
      subst hq
      rw [List.map_cons] at hnodup
      have hnd := List.nodup_cons.mp hnodup
      rw [tickWrites_cons, List.filter_append]
      by_cases hpq : p = q
      · subst hpq
        have hvn : vnew = n := by
          rcases List.mem_cons.mp hnew with h | h
          · simpa using h
          · exact absurd (List.mem_map.mpr ⟨(p, vnew), h, rfl⟩) hnd.1
        have hvo : vold = o := by
          rcases List.mem_cons.mp hold with h | h
          · simpa using h
          · refine absurd ?_ hnd.1
            rw [hmaps]
            exact List.mem_map.mpr ⟨(p, vold), h, rfl⟩
        subst hvn
        subst hvo
        have htail : (tickWrites tl os').filter (fun w => decide (w.1 = p)) = [] := by
          refine List.filter_eq_nil_iff.mpr fun w hw => ?_
          simp only [decide_eq_true_eq]
          intro heq
          refine hnd.1 ?_
          rw [← heq]
          exact @tickWrites_key_mem w tl os' hw
        rw [htail]
        by_cases hne : vnew = vold
        · simp [hne]
        · simp [hne]
      · have hnew' : (p, vnew) ∈ tl := by
          rcases List.mem_cons.mp hnew with h | h
          · exact absurd (by simpa using congrArg Prod.fst h) hpq
          · exact h
        have hold' : (p, vold) ∈ os' := by
          rcases List.mem_cons.mp hold with h | h
          · exact absurd (by simpa using congrArg Prod.fst h) hpq
          · exact h
        have hqp : ¬ (q = p) := fun hh => hpq hh.symm
        have hhead : ((if (q, n).2 ≠ (q, o).2 then [(q, n)] else []).filter
            (fun w => decide (w.1 = p))) = [] := by
          by_cases h : n = o <;> simp [h, hqp]
        rw [hhead, List.nil_append]
        exact ih os' hmaps hnd.2 hnew' hold'

/-- C2 witness: the spec's own example — previous snapshot
`{A: Int(1), B: Float(0.5)}`, current `{A: Int(1), B: Float(0.7)}` with `B`
ReadWrite (`A := AECFREEZEONOFF`, `B := AECNORM`; `0.7f32` is
`11744051/2^24`): exactly one write occurs for `B`, carrying 0.7. -/
theorem tick_writes_once_per_change_witness :
    (tickWrites
        [(.AECFREEZEONOFF, .int ⟨18, 7, 0, 1, .readWrite⟩ 1),
         (.AECNORM, .float ⟨18, 19, f32Of 1 2, f32Of 16 0, .readWrite⟩ (f32Of 11744051 24))]
        [(.AECFREEZEONOFF, .int ⟨18, 7, 0, 1, .readWrite⟩ 1),
         (.AECNORM, .float ⟨18, 19, f32Of 1 2, f32Of 16 0, .readWrite⟩ (f32Of 1 1))]).filter
      (fun w => decide (w.1 = .AECNORM)) =
      [(.AECNORM, .float ⟨18, 19, f32Of 1 2, f32Of 16 0, .readWrite⟩ (f32Of 11744051 24))] := by
  rw [tick_writes_once_per_change .AECNORM
    (.float ⟨18, 19, f32Of 1 2, f32Of 16 0, .readWrite⟩ (f32Of 11744051 24))
    (.float ⟨18, 19, f32Of 1 2, f32Of 16 0, .readWrite⟩ (f32Of 1 1))
    _ _ (by decide) (by decide) (by decide) (by decide)]
  decide

/-- C10 (implicit): `parse_value` performs no range validation — for an
integer parameter it succeeds exactly when the string parses as an `i32`,
for a float parameter exactly when it parses as an `f32` (on the modelled
finite-value domain), regardless of the parameter's `[min, max]`; the range
is enforced only later, at write time, as the out-of-range examples show
(`HPFONOFF` has max 3 yet `"17"` parses; `AECNORM` has max 16 yet `"100.0"`
parses; both writes are then rejected with `OutOfRange`). -/
theorem parse_value_no_range_check :
    (∀ (c : Config ℤ) (s : String),
      (ConfigInt.parse_value c s).isSome = (parseI32 s).isSome) ∧
    (∀ (c : Config F32) (s : String),
      (ConfigFloat.parse_value c s).isSome = (parseF32 s).isSome) ∧
    (∀ (p : Param) (s : String),
      (p.config.parse_value s).isSome =
        (if p.config.isIntTyped then (parseI32 s).isSome else (parseF32 s).isSome)) ∧
    Param.HPFONOFF.config.parse_value "17" =
      some (.int ⟨18, 27, 0, 3, .readWrite⟩ 17) ∧
    ReSpeakerDevice.write .HPFONOFF (.int ⟨18, 27, 0, 3, .readWrite⟩ 17) =
      .error (.outOfRangeInt 0 3 17) ∧
    Param.AECNORM.config.parse_value "100.0" =
      some (.float ⟨18, 19, f32Of 1 2, f32Of 16 0, .readWrite⟩ (f32Of 100 0)) ∧
    ReSpeakerDevice.write .AECNORM
        (.float ⟨18, 19, f32Of 1 2, f32Of 16 0, .readWrite⟩ (f32Of 100 0)) =
      .error (.outOfRangeFloat (f32Of 1 2) (f32Of 16 0) (f32Of 100 0)) := by
  refine ⟨fun c s => ?_, fun c s => ?_, fun p s => ?_,
    by decide, by decide, by decide, by decide⟩
  · unfold ConfigInt.parse_value
    cases parseI32 s <;> simp
  · unfold ConfigFloat.parse_value
    cases parseF32 s <;> simp
  · rcases hc : p.config with c | c | c <;>
      simp [hc, ParamConfig.parse_value, ParamConfig.isIntTyped,
        ConfigInt.parse_value, ConfigFloat.parse_value]

end Respeaker
